import Mathlib

/-!
Shallow embedding of the request/validation/retry pipeline of
`src/services/openai.ts` (the scheduling service of the daily-task app),
together with proofs of the specification claims about it.

Modelling conventions:
* JS strings are Lean `String`s; the character-level regex test and the
  `split(':')` operation are embedded as recursive functions on `List Char`.
* JS numbers appearing here are natural numbers (timestamps, delays,
  hours/minutes); every arithmetic step of the source is total on the
  values that actually reach it.
* A JS value that may be absent (`undefined`) is an `Option`.
* Exceptions are `Except`; a thrown value is either a classified
  `GeminiError` or some other error (`JsError.other`).
* The external model call of one attempt (rate-limit wait, network call,
  response handling) is abstracted as an oracle `Nat → Except JsError _`
  giving the outcome of each attempt index.
-/

namespace DailyTask

/-- The `Task` interface of the source: `{ description: string }`. -/
structure Task where
  description : String
deriving Repr, DecidableEq

/-- The `ScheduledTask` interface: `{ task, time, reason }`. -/
structure ScheduledTask where
  task : String
  time : String
  reason : String
deriving Repr, DecidableEq

/-- The `GeminiError` class: message, optional `code`, `isRetryable` flag
defaulting to `true` exactly as in the source constructor. -/
structure GeminiError where
  message : String
  code : Option String := none
  isRetryable : Bool := true
deriving Repr, DecidableEq

/-- A thrown JS value: either a classified `GeminiError` or any other
error (e.g. a transport failure raised by the SDK). -/
inductive JsError where
  | gemini (e : GeminiError)
  | other (message : String)
deriving Repr, DecidableEq

/-- Embedding of `isRetryableError`: classified errors report their own flag, every
other error is retryable by default. -/
def isRetryableError : JsError → Bool
  | .gemini e => e.isRetryable
  | .other _ => true

/-! ### Time strings: `split(':')`, `Number`, the regex, `convertTo12Hour` -/

/-- Embedding of JS `String.prototype.split` with a one-character
separator, on the character list of the string. -/
def splitCh (sep : Char) : List Char → List (List Char)
  | [] => [[]]
  | c :: rest =>
    match splitCh sep rest with
    | [] => if c = sep then [[], []] else [[c]]
    | g :: gs => if c = sep then [] :: g :: gs else (c :: g) :: gs

/-- Embedding of JS `Number` on the strings that reach it here: all of
them are non-empty digit strings, on which `Number` is base-10 reading. -/
def toNumber (cs : List Char) : Nat :=
  cs.foldl (fun n c => n * 10 + (c.toNat - 48)) 0

/-- Embedding of `split(':').map(Number)` destructured as `[hours, minutes]`: the
pair of the first two components (validated times always have exactly
two), on the character list. -/
def parsePartsList (l : List Char) : Nat × Nat :=
  match (splitCh ':' l).map toNumber with
  | h :: m :: _ => (h, m)
  | [h] => (h, 0)
  | [] => (0, 0)

/-- Embedding of `time24.split(':').map(Number)` destructured as `[hours, minutes]`. -/
def parseTimeParts (s : String) : Nat × Nat :=
  parsePartsList s.data

/-- Embedding of `String.prototype.padStart(2, '0')`. -/
def padStart2 (s : String) : String :=
  if s.length < 2 then String.mk (List.replicate (2 - s.length) '0') ++ s else s

/-- Body of `convertTo12Hour` after the split: period from `hours >= 12`,
`hours % 12 || 12`, minutes zero-padded. -/
def render12 (hours minutes : Nat) : String :=
  let period := if hours ≥ 12 then "PM" else "AM"
  let hours12 := if hours % 12 = 0 then 12 else hours % 12
  toString hours12 ++ ":" ++ padStart2 (toString minutes) ++ " " ++ period

/-- Embedding of `convertTo12Hour` of the source. -/
def convertTo12Hour (time24 : String) : String :=
  let p := parseTimeParts time24
  render12 p.1 p.2

/-- The character class `[0-9]`, i.e. `'0' ≤ c ≤ '9'`. -/
def isDigitCh (c : Char) : Bool := '0' ≤ c && c ≤ '9'

/-- The `:[0-5][0-9]$` tail of the time regex. -/
def matchMinTail : List Char → Bool
  | ':' :: m1 :: m2 :: [] => ('0' ≤ m1 && m1 ≤ '5') && isDigitCh m2
  | _ => false

/-- First alternative `[01]?[0-9]` of the hour group (with the regex
backtracking over the optional `[01]` folded into a disjunction),
followed by the minute tail. -/
def matchHourAlt1 : List Char → Bool
  | [] => false
  | c1 :: rest =>
    ((c1 = '0' || c1 = '1') &&
      (match rest with
       | c2 :: rest2 => isDigitCh c2 && matchMinTail rest2
       | [] => false))
    || (isDigitCh c1 && matchMinTail rest)

/-- Second alternative `2[0-3]` of the hour group, followed by the
minute tail. -/
def matchHourAlt2 : List Char → Bool
  | '2' :: c2 :: rest => ('0' ≤ c2 && c2 ≤ '3') && matchMinTail rest
  | _ => false

/-- The regex `^([01]?[0-9]|2[0-3]):[0-5][0-9]$` applied to a whole string, as
`timeRegex.test(item.time)` does. -/
def timeRegexTest (s : String) : Bool :=
  matchHourAlt1 s.data || matchHourAlt2 s.data


/-! ### Response validation (`planTasks` lines 130–160) -/

/-- One entry of the parsed response's `schedule` array, projected to
the three fields the validator reads.  `none` models an absent
(`undefined`) field; claims only concern entries whose present fields
are strings. -/
structure RawItem where
  task : Option String := none
  time : Option String := none
  reason : Option String := none
deriving Repr, DecidableEq

/-- JS falsiness of an optional string field: absent or empty. -/
def falsyField : Option String → Bool
  | none => true
  | some s => s.isEmpty

/-- A validated entry, still carrying the internal `sortTime` key. -/
structure ValidatedItem where
  task : String
  time : String
  reason : String
  sortTime : String
deriving Repr, DecidableEq

/-- The body of the `schedule.map` callback: field presence check, then
the regex test, then the converted entry with `sortTime`. -/
def validateItem (item : RawItem) : Except GeminiError ValidatedItem :=
  if falsyField item.task || falsyField item.time || falsyField item.reason then
    .error { message := "Invalid schedule item: missing required fields",
             code := some "INVALID_FORMAT" }
  else if !timeRegexTest (item.time.getD "") then
    .error { message := "Invalid time format: " ++ item.time.getD "",
             code := some "INVALID_FORMAT" }
  else
    .ok { task := item.task.getD "", time := convertTo12Hour (item.time.getD ""),
          reason := item.reason.getD "", sortTime := item.time.getD "" }

/-- Embedding of `parsedResponse.schedule.map(...)`: left-to-right, aborting at the
first thrown error, exactly as a JS `Array.prototype.map` whose callback
throws. -/
def validateAll : List RawItem → Except GeminiError (List ValidatedItem)
  | [] => .ok []
  | item :: rest =>
    match validateItem item with
    | .error e => .error e
    | .ok v =>
      match validateAll rest with
      | .error e => .error e
      | .ok vs => .ok (v :: vs)

/-- The comparator key `hours * 60 + minutes` computed from `sortTime`
by the sort callback. -/
def sortKey (v : ValidatedItem) : Nat :=
  (parseTimeParts v.sortTime).1 * 60 + (parseTimeParts v.sortTime).2

/-- Embedding of `validatedSchedule.sort((a, b) => keyA - keyB)`: the stable sort
ascending by `sortKey` (JS `Array.prototype.sort` is stable, and the
stable sort by a numeric key is unique; it is realized here by
insertion sort, which computes it). -/
def sortSchedule (l : List ValidatedItem) : List ValidatedItem :=
  List.insertionSort (fun a b => sortKey a ≤ sortKey b) l

/-- Embedding of `({ sortTime, ...rest }) => rest`: drop the internal sort key. -/
def stripSortTime (v : ValidatedItem) : ScheduledTask :=
  { task := v.task, time := v.time, reason := v.reason }

/-- The parsed JSON response, projected to its `schedule` field:
`none` models a missing `schedule` or one that is not an array (both
fail the `!parsedResponse.schedule || !Array.isArray(...)` check; an
empty array is truthy in JS and passes it). -/
structure ParsedResponse where
  schedule : Option (List RawItem)
deriving Repr, DecidableEq

/-- Validation of a parsed response: the `schedule` array check, the
per-entry `map`, the sort, and the `sortTime` removal. -/
def validateResponse (p : ParsedResponse) : Except GeminiError (List ScheduledTask) :=
  match p.schedule with
  | none =>
    .error { message := "Invalid response format: missing schedule array",
             code := some "INVALID_FORMAT" }
  | some items =>
    match validateAll items with
    | .error e => .error e
    | .ok validated => .ok ((sortSchedule validated).map stripSortTime)

/-! ### Prompt construction (`planTasks` lines 81–105) -/

/-- The template-literal text before `${taskList}` (braces written as
escapes). -/
def promptHead : String :=
  "You are a task planning assistant. Create an optimal daily schedule based on the following tasks.\n  Consider factors like energy levels, task complexity, and natural breaks.\n  \n  Tasks:\n  "

/-- The template-literal text after `${taskList}`. -/
def promptTail : String :=
  "\n  \n  Please provide a schedule in the following exact JSON format:\n  \x7b\n    \"schedule\": [\n      \x7b\n        \"task\": \"exact task description\",\n        \"time\": \"HH:MM in 24-hour format\",\n        \"reason\": \"brief explanation of scheduling\"\n      \x7d\n    ]\n  \x7d\n  \n  Important:\n  - Use exact 24-hour time format (e.g., \"09:00\", \"14:30\")\n  - Keep task descriptions exactly as provided\n  - Provide clear, concise reasons for scheduling\n  - Ensure all times are within a typical day (06:00 to 22:00)\n  - Return ONLY the JSON, no additional text"

/-- Embedding of `tasks.map(t => t.description).join('\n')`. -/
def taskListString (tasks : List Task) : String :=
  String.intercalate "\n" (tasks.map (fun t => t.description))

/-- The full prompt: the template literal with `taskList` interpolated. -/
def buildPrompt (tasks : List Task) : String :=
  promptHead ++ taskListString tasks ++ promptTail

/-! ### Rate limiter (`RateLimiter.waitForSlot`, lines 22–34) -/

/-- Embedding of `this.requests = this.requests.filter(time => now - time < windowMs)`
(timestamps never exceed `now` under a monotone clock, so the truncated
subtraction agrees with the JS arithmetic). -/
def evictOld (windowMs now : Nat) (requests : List Nat) : List Nat :=
  requests.filter (fun t => now - t < windowMs)

/-- Outcome of one `waitForSlot()` call: the final timestamp list, the
time at which the request was recorded, and the sleeps performed, or
exhaustion of the supplied clock readings (which does not occur in any
run the claims quantify over). -/
inductive WaitOutcome where
  | recorded (finalRequests : List Nat) (recordTime : Nat) (waits : List Nat)
  | noClock
deriving Repr, DecidableEq

/-- Embedding of `waitForSlot()`: each entry of `nows` is the value of `Date.now()`
at one entry into the (recursive) method body.  Evict, then either
sleep `windowMs - (now - oldest)` and re-evaluate from scratch, or push
`now` and return. -/
def waitForSlot (limit windowMs : Nat) : (nows : List Nat) → (requests : List Nat) → WaitOutcome
  | [], _ => .noClock
  | now :: nows, requests =>
    let remaining := evictOld windowMs now requests
    if remaining.length ≥ limit then
      let oldest := remaining.headD 0
      let waitTime := windowMs - (now - oldest)
      match waitForSlot limit windowMs nows remaining with
      | .recorded rs t ws => .recorded rs t (waitTime :: ws)
      | .noClock => .noClock
    else
      .recorded (remaining ++ [now]) now []

/-- The service's limiter configuration: 3 requests per 60 000 ms. -/
def serviceLimit : Nat := 3

/-- The service's rate window in milliseconds. -/
def serviceWindowMs : Nat := 60000

/-! ### Retry orchestration (`planTasks` lines 76–188) -/

/-- The `maxRetries` constant of the source. -/
def maxRetries : Nat := 3

/-- The `baseDelay` constant of the source (milliseconds). -/
def baseDelay : Nat := 1000

/-- The `catch` clause's terminal throw: a classified error is rethrown
as is, anything else becomes the generic `UNKNOWN_ERROR`. -/
def classifyFinal : JsError → GeminiError
  | .gemini e => e
  | .other _ =>
    { message := "An unexpected error occurred while planning tasks",
      code := some "UNKNOWN_ERROR" }

/-- Result of one `planTasks` run: the resolved value or the rejected
error, the number of model invocations performed, and the backoff
sleeps in order. -/
structure PlanOutcome where
  result : Except JsError (List ScheduledTask)
  modelCalls : Nat
  delays : List Nat
deriving Repr

/-- The `for (attempt = 0; attempt <= maxRetries; attempt++)` loop.
`oracle i` is the outcome of attempt `i` (rate-limit wait, model call,
response processing).  `fuel` is the number of iterations the loop
guard still allows, so the loop is entered with `fuel = maxRetries + 1`;
the fuel-exhausted case is the final
`throw lastError || new GeminiError(...)` after the loop. -/
def attemptLoop (oracle : Nat → Except JsError (List ScheduledTask)) :
    (fuel attempt : Nat) → (calls : Nat) → (delays : List Nat) →
    (lastError : Option JsError) → PlanOutcome
  | 0, _, calls, delays, lastError =>
    { result := .error (lastError.getD
        (.gemini { message := "Failed to plan tasks after multiple attempts" })),
      modelCalls := calls, delays := delays }
  | fuel + 1, attempt, calls, delays, _ =>
    match oracle attempt with
    | .ok schedule =>
      { result := .ok schedule, modelCalls := calls + 1, delays := delays }
    | .error e =>
      if !isRetryableError e || attempt = maxRetries then
        { result := .error (.gemini (classifyFinal e)),
          modelCalls := calls + 1, delays := delays }
      else
        attemptLoop oracle fuel (attempt + 1) (calls + 1)
          (delays ++ [baseDelay * 2 ^ attempt]) (some e)

/-- The `NoTasksError` thrown by the empty-input guard. -/
def noTasksError : GeminiError :=
  { message := "No tasks provided for planning", code := some "NO_TASKS",
    isRetryable := false }

/-- Embedding of `planTasks`: the empty guard, then the attempt loop. -/
def planTasks (tasks : List Task)
    (oracle : Nat → Except JsError (List ScheduledTask)) : PlanOutcome :=
  if tasks.length = 0 then
    { result := .error (.gemini noTasksError), modelCalls := 0, delays := [] }
  else
    attemptLoop oracle (maxRetries + 1) 0 0 [] none

/-- State-passing form of `planTasks`, returning alongside the outcome
the caller's task list as it stands when the call finishes.  The source
reads `tasks` through `tasks.length` and `tasks.map(...)` only; both
are embedded as the non-mutating operations they are in JS, so the
final list is the input list. -/
def planTasksWithState (tasks : List Task)
    (oracle : Nat → Except JsError (List ScheduledTask)) :
    PlanOutcome × List Task :=
  if tasks.length = 0 then
    ({ result := .error (.gemini noTasksError), modelCalls := 0, delays := [] },
     tasks)
  else
    let _prompt := buildPrompt tasks
    (attemptLoop oracle (maxRetries + 1) 0 0 [] none, tasks)

/-- Outcome of an attempt whose model response parsed to `p` (lifting
the validator's classified errors into thrown values). -/
def attemptOf (p : ParsedResponse) : Except JsError (List ScheduledTask) :=
  match validateResponse p with
  | .ok s => .ok s
  | .error e => .error (.gemini e)

/-! ### Spec-side comparison definitions -/

/-- The spec's zero-padded 24-hour `HH:MM` rendering of an hour/minute
pair (comparison definition for the regex characterization). -/
def fmtTimePadded (h m : Nat) : String :=
  padStart2 (toString h) ++ ":" ++ padStart2 (toString m)

/-- The spec's single-digit-hour `H:MM` rendering (e.g. `"9:00"`),
which the regex also accepts. -/
def fmtTimeBare (h m : Nat) : String :=
  toString h ++ ":" ++ padStart2 (toString m)

/-- The 12-hour display form exactly as the spec words it: hours `0`
and `12` both render as `12`, hours `13–23` subtract 12, hours `1–11`
are unchanged, minutes are zero-padded to two digits, and the suffix is
`AM` for pre-conversion hours `0–11` and `PM` for `12–23`. -/
def render12Spec (h m : Nat) : String :=
  (if h = 0 ∨ h = 12 then toString 12
   else if 13 ≤ h then toString (h - 12) else toString h)
    ++ ":" ++ padStart2 (toString m) ++ (if h ≤ 11 then " AM" else " PM")

/-! ### Character-level facts about the time regex and `split` -/

lemma toNat_le_of_le {a b : Char} (h : a ≤ b) : a.toNat ≤ b.toNat := h

lemma le_toNat_lit {c b : Char} {n : Nat} (h : b ≤ c) (hb : b.toNat = n) : n ≤ c.toNat :=
  hb ▸ toNat_le_of_le h

lemma toNat_le_lit {c b : Char} {n : Nat} (h : c ≤ b) (hb : b.toNat = n) : c.toNat ≤ n :=
  hb ▸ toNat_le_of_le h

lemma ne_colon_of_le {c bound : Char} (h : c ≤ bound) (hb : bound < ':') : c ≠ ':' := by
  intro hc
  subst hc
  exact absurd (lt_of_le_of_lt h hb) (lt_irrefl _)

lemma matchMinTail_sound {l : List Char} (h : matchMinTail l = true) :
    ∃ m1 m2, l = [':', m1, m2] ∧ '0' ≤ m1 ∧ m1 ≤ '5' ∧ '0' ≤ m2 ∧ m2 ≤ '9' := by
  rw [matchMinTail.eq_def] at h
  split at h
  · next m1 m2 =>
    simp only [Bool.and_eq_true, decide_eq_true_eq, isDigitCh] at h
    exact ⟨m1, m2, rfl, h.1.1, h.1.2, h.2.1, h.2.2⟩
  · simp at h

lemma matchHourAlt2_sound {l : List Char} (h : matchHourAlt2 l = true) :
    ∃ c2 m1 m2, l = ['2', c2, ':', m1, m2] ∧ '0' ≤ c2 ∧ c2 ≤ '3' ∧
      '0' ≤ m1 ∧ m1 ≤ '5' ∧ '0' ≤ m2 ∧ m2 ≤ '9' := by
  rw [matchHourAlt2.eq_def] at h
  split at h
  · next c2 rest =>
    simp only [Bool.and_eq_true, decide_eq_true_eq] at h
    obtain ⟨⟨ha, hb⟩, htail⟩ := h
    obtain ⟨m1, m2, hre, h1, h2, h3, h4⟩ := matchMinTail_sound htail
    subst hre
    exact ⟨c2, m1, m2, rfl, ha, hb, h1, h2, h3, h4⟩
  · simp at h

lemma matchHourAlt1_sound {l : List Char} (h : matchHourAlt1 l = true) :
    (∃ c1 m1 m2, l = [c1, ':', m1, m2] ∧ '0' ≤ c1 ∧ c1 ≤ '9' ∧
        '0' ≤ m1 ∧ m1 ≤ '5' ∧ '0' ≤ m2 ∧ m2 ≤ '9') ∨
    (∃ c1 c2 m1 m2, l = [c1, c2, ':', m1, m2] ∧ (c1 = '0' ∨ c1 = '1') ∧
        '0' ≤ c2 ∧ c2 ≤ '9' ∧ '0' ≤ m1 ∧ m1 ≤ '5' ∧ '0' ≤ m2 ∧ m2 ≤ '9') := by
  rcases l with _ | ⟨c1, rest⟩
  · exact absurd h (by simp [matchHourAlt1])
  · simp only [matchHourAlt1, Bool.or_eq_true, Bool.and_eq_true, decide_eq_true_eq,
      isDigitCh] at h
    rcases h with ⟨hc1, hrest⟩ | ⟨⟨ha, hb⟩, htail⟩
    · rcases rest with _ | ⟨c2, rest2⟩
      · exact absurd hrest (by simp)
      · simp only [Bool.and_eq_true, decide_eq_true_eq, isDigitCh] at hrest
        obtain ⟨⟨ha, hb⟩, htail⟩ := hrest
        obtain ⟨m1, m2, hre, h1, h2, h3, h4⟩ := matchMinTail_sound htail
        subst hre
        exact .inr ⟨c1, c2, m1, m2, rfl, hc1, ha, hb, h1, h2, h3, h4⟩
    · obtain ⟨m1, m2, hre, h1, h2, h3, h4⟩ := matchMinTail_sound htail
      subst hre
      exact .inl ⟨c1, m1, m2, rfl, ha, hb, h1, h2, h3, h4⟩

lemma toNumber_one (c : Char) : toNumber [c] = c.toNat - 48 := by
  simp [toNumber]

lemma toNumber_two (a b : Char) :
    toNumber [a, b] = (a.toNat - 48) * 10 + (b.toNat - 48) := by
  simp [toNumber]

lemma parseParts_one {c1 m1 m2 : Char} (h1 : c1 ≠ ':') (hm1 : m1 ≠ ':') (hm2 : m2 ≠ ':') :
    parsePartsList [c1, ':', m1, m2] = (toNumber [c1], toNumber [m1, m2]) := by
  simp [parsePartsList, splitCh, h1, hm1, hm2]

lemma parseParts_two {c1 c2 m1 m2 : Char} (h1 : c1 ≠ ':') (h2 : c2 ≠ ':')
    (hm1 : m1 ≠ ':') (hm2 : m2 ≠ ':') :
    parsePartsList [c1, c2, ':', m1, m2] = (toNumber [c1, c2], toNumber [m1, m2]) := by
  simp [parsePartsList, splitCh, h1, h2, hm1, hm2]

lemma minutes_le {m1 m2 : Char} (h1 : '0' ≤ m1) (h2 : m1 ≤ '5') (h3 : '0' ≤ m2)
    (h4 : m2 ≤ '9') : toNumber [m1, m2] ≤ 59 := by
  have b1 := le_toNat_lit h1 (show ('0':Char).toNat = 48 from rfl)
  have b2 := toNat_le_lit h2 (show ('5':Char).toNat = 53 from rfl)
  have b3 := le_toNat_lit h3 (show ('0':Char).toNat = 48 from rfl)
  have b4 := toNat_le_lit h4 (show ('9':Char).toNat = 57 from rfl)
  rw [toNumber_two]
  omega

theorem timeRegex_sound {s : String} (h : timeRegexTest s = true) :
    (parseTimeParts s).1 ≤ 23 ∧ (parseTimeParts s).2 ≤ 59 := by
  rw [timeRegexTest, Bool.or_eq_true] at h
  rw [parseTimeParts]
  rcases h with h | h
  · rcases matchHourAlt1_sound h with
      ⟨c1, m1, m2, hre, ha, hb, h1, h2, h3, h4⟩ |
      ⟨c1, c2, m1, m2, hre, hc1, ha, hb, h1, h2, h3, h4⟩
    · rw [hre, parseParts_one (ne_colon_of_le hb (by decide))
        (ne_colon_of_le h2 (by decide)) (ne_colon_of_le h4 (by decide))]
      refine ⟨?_, minutes_le h1 h2 h3 h4⟩
      rw [toNumber_one]
      have := toNat_le_lit hb (show ('9':Char).toNat = 57 from rfl)
      simp only []
      omega
    · have hc1' : '0' ≤ c1 := by rcases hc1 with rfl | rfl <;> decide
      have hc1ne : c1 ≠ ':' := by rcases hc1 with rfl | rfl <;> decide
      rw [hre, parseParts_two hc1ne (ne_colon_of_le hb (by decide))
        (ne_colon_of_le h2 (by decide)) (ne_colon_of_le h4 (by decide))]
      refine ⟨?_, minutes_le h1 h2 h3 h4⟩
      rw [toNumber_two]
      have bc1 : c1.toNat ≤ 49 := by rcases hc1 with rfl | rfl <;> decide
      have bc1' := le_toNat_lit hc1' (show ('0':Char).toNat = 48 from rfl)
      have bc2 := toNat_le_lit hb (show ('9':Char).toNat = 57 from rfl)
      have bc2' := le_toNat_lit ha (show ('0':Char).toNat = 48 from rfl)
      simp only []
      omega
  · obtain ⟨c2, m1, m2, hre, ha, hb, h1, h2, h3, h4⟩ := matchHourAlt2_sound h
    rw [hre, parseParts_two (by decide) (ne_colon_of_le hb (by decide))
      (ne_colon_of_le h2 (by decide)) (ne_colon_of_le h4 (by decide))]
    refine ⟨?_, minutes_le h1 h2 h3 h4⟩
    rw [toNumber_two]
    have bc2 := toNat_le_lit hb (show ('3':Char).toNat = 51 from rfl)
    have bc2' := le_toNat_lit ha (show ('0':Char).toNat = 48 from rfl)
    have : ('2':Char).toNat = 50 := rfl
    simp only []
    omega

/-! ### Helper lemmas: conversion, validation, retry loop -/

lemma render12_eq_spec : ∀ h : Fin 24, ∀ m : Fin 60,
    render12 h.val m.val = render12Spec h.val m.val := by decide

lemma convertTo12Hour_eq_spec {s : String} (h : timeRegexTest s = true) :
    convertTo12Hour s = render12Spec (parseTimeParts s).1 (parseTimeParts s).2 := by
  obtain ⟨h1, h2⟩ := timeRegex_sound h
  have := render12_eq_spec ⟨(parseTimeParts s).1, by omega⟩ ⟨(parseTimeParts s).2, by omega⟩
  simpa [convertTo12Hour] using this

/-- C3: conversion of every validated time matches the spec's 12-hour
rendering; boundary cases `00:00`, `12:00`, `23:59`. -/
theorem C3_convert_12hour :
    (∀ s : String, timeRegexTest s = true →
      convertTo12Hour s = render12Spec (parseTimeParts s).1 (parseTimeParts s).2) ∧
    convertTo12Hour "00:00" = "12:00 AM" ∧
    convertTo12Hour "12:00" = "12:00 PM" ∧
    convertTo12Hour "23:59" = "11:59 PM" := by
  refine ⟨fun s h => convertTo12Hour_eq_spec h, ?_, ?_, ?_⟩ <;> decide

theorem C3_convert_12hour_witness :
    convertTo12Hour "09:05" = render12Spec 9 5 :=
  C3_convert_12hour.1 "09:05" (by decide)


/-- C1: an empty task list rejects with the non-retryable `NO_TASKS`
error before any model call, whatever the attempts would have done. -/
theorem C1_empty_tasks :
    ∀ oracle : Nat → Except JsError (List ScheduledTask),
      planTasks [] oracle =
        { result := .error (.gemini noTasksError), modelCalls := 0, delays := [] } ∧
      noTasksError.code = some "NO_TASKS" ∧
      noTasksError.isRetryable = false := by
  intro oracle
  exact ⟨rfl, rfl, rfl⟩

/-- C8: the prompt is a pure function of the ordered description list,
and contains the descriptions verbatim, newline-separated, in input
order, between the fixed head and tail of the template. -/
theorem C8_prompt_deterministic :
    (∀ ts1 ts2 : List Task,
      ts1.map (fun t => t.description) = ts2.map (fun t => t.description) →
      buildPrompt ts1 = buildPrompt ts2) ∧
    (∀ ts : List Task,
      buildPrompt ts =
        promptHead ++ String.intercalate "\n" (ts.map (fun t => t.description))
          ++ promptTail) ∧
    (∀ ts : List Task,
      (buildPrompt ts).data =
        promptHead.data
          ++ (String.intercalate "\n" (ts.map (fun t => t.description))).data
          ++ promptTail.data) := by
  refine ⟨fun ts1 ts2 h => ?_, fun ts => rfl, fun ts => ?_⟩
  · simp only [buildPrompt, taskListString, h]
  · simp [buildPrompt, taskListString]

theorem C8_prompt_deterministic_witness :
    buildPrompt [{ description := "a" }, { description := "b" }] =
      buildPrompt [{ description := "a" }, { description := "b" }] :=
  C8_prompt_deterministic.1 _ _ rfl

/-- C9: the caller's task list is unchanged on every path: the
state-passing embedding returns the input list and otherwise computes
exactly `planTasks`. -/
theorem C9_no_mutation :
    ∀ (tasks : List Task) (oracle : Nat → Except JsError (List ScheduledTask)),
      (planTasksWithState tasks oracle).2 = tasks ∧
      (planTasksWithState tasks oracle).1 = planTasks tasks oracle := by
  intro tasks oracle
  unfold planTasksWithState planTasks
  split <;> exact ⟨rfl, rfl⟩


lemma attemptLoop_step_ok {oracle : Nat → Except JsError (List ScheduledTask)}
    {attempt : Nat} {s : List ScheduledTask} (he : oracle attempt = .ok s)
    (fuel calls : Nat) (delays : List Nat) (lastErr : Option JsError) :
    attemptLoop oracle (fuel + 1) attempt calls delays lastErr =
      { result := .ok s, modelCalls := calls + 1, delays := delays } := by
  rw [attemptLoop, he]

lemma attemptLoop_step_retry {oracle : Nat → Except JsError (List ScheduledTask)}
    {attempt : Nat} {e : JsError} (he : oracle attempt = .error e)
    (hr : isRetryableError e = true) (hlast : attempt ≠ maxRetries)
    (fuel calls : Nat) (delays : List Nat) (lastErr : Option JsError) :
    attemptLoop oracle (fuel + 1) attempt calls delays lastErr =
      attemptLoop oracle fuel (attempt + 1) (calls + 1)
        (delays ++ [baseDelay * 2 ^ attempt]) (some e) := by
  rw [attemptLoop, he]
  simp [hr, hlast]

lemma attemptLoop_step_stop {oracle : Nat → Except JsError (List ScheduledTask)}
    {attempt : Nat} {e : JsError} (he : oracle attempt = .error e)
    (hstop : isRetryableError e = false ∨ attempt = maxRetries)
    (fuel calls : Nat) (delays : List Nat) (lastErr : Option JsError) :
    attemptLoop oracle (fuel + 1) attempt calls delays lastErr =
      { result := .error (.gemini (classifyFinal e)),
        modelCalls := calls + 1, delays := delays } := by
  rw [attemptLoop, he]
  rcases hstop with h | h <;> simp [h]

lemma attemptLoop_calls_le (oracle : Nat → Except JsError (List ScheduledTask)) :
    ∀ fuel attempt calls delays lastErr,
      (attemptLoop oracle fuel attempt calls delays lastErr).modelCalls ≤ calls + fuel := by
  intro fuel
  induction fuel with
  | zero => intro attempt calls delays lastErr; simp [attemptLoop]
  | succ n ih =>
    intro attempt calls delays lastErr
    cases hor : oracle attempt with
    | ok s =>
      rw [attemptLoop_step_ok hor]
      show calls + 1 ≤ calls + (n + 1)
      omega
    | error e =>
      by_cases hstop : isRetryableError e = false ∨ attempt = maxRetries
      · rw [attemptLoop_step_stop hor hstop]
        show calls + 1 ≤ calls + (n + 1)
        omega
      · push_neg at hstop
        rw [attemptLoop_step_retry hor (by simpa using hstop.1) hstop.2]
        have h := ih (attempt + 1) (calls + 1)
          (delays ++ [baseDelay * 2 ^ attempt]) (some e)
        omega

/-- C5: at most `maxRetries + 1 = 4` model calls per invocation; a
retryable failure on a non-final attempt `i` sleeps exactly
`baseDelay * 2 ^ i` milliseconds before attempt `i + 1`; three
retryable failures followed by a success return the success, with
exactly the backoff sleeps 1000, 2000, 4000 ms in between. -/
theorem C5_retry_backoff :
    (∀ (tasks : List Task) (oracle : Nat → Except JsError (List ScheduledTask)),
      (planTasks tasks oracle).modelCalls ≤ maxRetries + 1) ∧
    (∀ (oracle : Nat → Except JsError (List ScheduledTask))
        (i fuel calls : Nat) (delays : List Nat) (lastErr : Option JsError)
        (e : JsError),
      oracle i = .error e → isRetryableError e = true → i ≠ maxRetries →
      attemptLoop oracle (fuel + 1) i calls delays lastErr =
        attemptLoop oracle fuel (i + 1) (calls + 1)
          (delays ++ [baseDelay * 2 ^ i]) (some e)) ∧
    (∀ (tasks : List Task) (oracle : Nat → Except JsError (List ScheduledTask))
        (s : List ScheduledTask),
      tasks.length ≠ 0 →
      (∀ i, i < 3 → ∃ e, oracle i = .error e ∧ isRetryableError e = true) →
      oracle 3 = .ok s →
      planTasks tasks oracle =
        { result := .ok s, modelCalls := 4, delays := [1000, 2000, 4000] }) := by
  refine ⟨?_, ?_, ?_⟩
  · intro tasks oracle
    rw [planTasks]
    split
    · simp
    · exact le_trans (attemptLoop_calls_le oracle 4 0 0 [] none) (by simp [maxRetries])
  · intro oracle i fuel calls delays lastErr e he hr hi
    exact attemptLoop_step_retry he hr hi fuel calls delays lastErr
  · intro tasks oracle s hne hfail hok
    obtain ⟨e0, he0, hr0⟩ := hfail 0 (by omega)
    obtain ⟨e1, he1, hr1⟩ := hfail 1 (by omega)
    obtain ⟨e2, he2, hr2⟩ := hfail 2 (by omega)
    rw [planTasks, if_neg hne]
    rw [show maxRetries + 1 = 3 + 1 from rfl,
      attemptLoop_step_retry he0 hr0 (by simp [maxRetries]),
      attemptLoop_step_retry he1 hr1 (by simp [maxRetries]),
      attemptLoop_step_retry he2 hr2 (by simp [maxRetries]),
      attemptLoop_step_ok hok]
    simp [baseDelay]

theorem C5_retry_backoff_witness :
    planTasks [{ description := "t" }]
        (fun i => if i < 3 then .error (.other "transient") else .ok []) =
      { result := .ok [], modelCalls := 4, delays := [1000, 2000, 4000] } :=
  C5_retry_backoff.2.2 [{ description := "t" }] _ []
    (by decide)
    (fun i hi => ⟨.other "transient", by simp [hi], rfl⟩)
    (by simp)


lemma classifyFinal_gemini (e : GeminiError) : classifyFinal (.gemini e) = e := rfl

/-- C6: a non-retryable classified failure at any attempt ends the call
at once with that error — no further model calls and no backoff sleep
after it; unclassified errors default to retryable. -/
theorem C6_nonretryable_short_circuit :
    (∀ msg, isRetryableError (.other msg) = true) ∧
    (∀ (tasks : List Task) (oracle : Nat → Except JsError (List ScheduledTask))
        (i : Nat) (e : GeminiError),
      tasks.length ≠ 0 → i ≤ maxRetries →
      (∀ j, j < i → ∃ e', oracle j = .error e' ∧ isRetryableError e' = true) →
      oracle i = .error (.gemini e) → e.isRetryable = false →
      planTasks tasks oracle =
        { result := .error (.gemini e), modelCalls := i + 1,
          delays := (List.range i).map (fun j => baseDelay * 2 ^ j) }) := by
  refine ⟨fun msg => rfl, ?_⟩
  intro tasks oracle i e hne hi hfail hbad hflag
  have hstop : isRetryableError (.gemini e) = false ∨ i = maxRetries := .inl (by simp [isRetryableError, hflag])
  have hi3 : i ≤ 3 := by simpa [maxRetries] using hi
  rw [planTasks, if_neg hne]
  clear hi
  interval_cases i
  · rw [show maxRetries + 1 = 3 + 1 from rfl, attemptLoop_step_stop hbad hstop]
    norm_num [classifyFinal_gemini, baseDelay, List.range_succ]
  · obtain ⟨e0, he0, hr0⟩ := hfail 0 (by omega)
    rw [show maxRetries + 1 = 3 + 1 from rfl,
      attemptLoop_step_retry he0 hr0 (by simp [maxRetries]),
      attemptLoop_step_stop hbad hstop]
    norm_num [classifyFinal_gemini, baseDelay, List.range_succ]
  · obtain ⟨e0, he0, hr0⟩ := hfail 0 (by omega)
    obtain ⟨e1, he1, hr1⟩ := hfail 1 (by omega)
    rw [show maxRetries + 1 = 3 + 1 from rfl,
      attemptLoop_step_retry he0 hr0 (by simp [maxRetries]),
      attemptLoop_step_retry he1 hr1 (by simp [maxRetries]),
      attemptLoop_step_stop hbad hstop]
    norm_num [classifyFinal_gemini, baseDelay, List.range_succ]
  · obtain ⟨e0, he0, hr0⟩ := hfail 0 (by omega)
    obtain ⟨e1, he1, hr1⟩ := hfail 1 (by omega)
    obtain ⟨e2, he2, hr2⟩ := hfail 2 (by omega)
    rw [show maxRetries + 1 = 3 + 1 from rfl,
      attemptLoop_step_retry he0 hr0 (by simp [maxRetries]),
      attemptLoop_step_retry he1 hr1 (by simp [maxRetries]),
      attemptLoop_step_retry he2 hr2 (by simp [maxRetries]),
      attemptLoop_step_stop hbad hstop]
    norm_num [classifyFinal_gemini, baseDelay, List.range_succ]

theorem C6_nonretryable_short_circuit_witness :
    planTasks [{ description := "t" }]
        (fun _ => .error (.gemini noTasksError)) =
      { result := .error (.gemini noTasksError), modelCalls := 1, delays := [] } :=
  C6_nonretryable_short_circuit.2 [{ description := "t" }] _ 0 noTasksError
    (by decide) (by decide) (fun j hj => absurd hj (by omega)) rfl rfl


lemma validateResponse_some (items : List RawItem) :
    validateResponse ⟨some items⟩ =
      match validateAll items with
      | .error e => .error e
      | .ok validated => .ok ((sortSchedule validated).map stripSortTime) := rfl

lemma validateItem_error_code {item : RawItem} {e : GeminiError}
    (h : validateItem item = .error e) : e.code = some "INVALID_FORMAT" := by
  rw [validateItem] at h
  split at h
  · cases h; rfl
  · split at h
    · cases h; rfl
    · cases h

lemma validateItem_error_of_bad {item : RawItem}
    (h : (falsyField item.task || falsyField item.time || falsyField item.reason) = true
      ∨ timeRegexTest (item.time.getD "") = false) :
    ∃ e, validateItem item = .error e := by
  rw [validateItem]
  by_cases hf : (falsyField item.task || falsyField item.time || falsyField item.reason) = true
  · exact ⟨_, by rw [if_pos hf]⟩
  · rcases h with h | h
    · exact absurd h hf
    · refine ⟨{ message := "Invalid time format: " ++ item.time.getD "",
                 code := some "INVALID_FORMAT" }, ?_⟩
      rw [if_neg hf, if_pos (by simp [h])]

lemma validateAll_error_code {items : List RawItem} {e : GeminiError}
    (h : validateAll items = .error e) : e.code = some "INVALID_FORMAT" := by
  induction items with
  | nil => cases h
  | cons item rest ih =>
    rw [validateAll] at h
    cases hv : validateItem item with
    | error e' =>
      simp only [hv] at h
      cases h
      exact validateItem_error_code hv
    | ok v =>
      simp only [hv] at h
      cases hr : validateAll rest with
      | error e' =>
        simp only [hr] at h
        cases h
        exact ih hr
      | ok vs =>
        simp only [hr] at h
        cases h

lemma validateAll_ok_mem {items : List RawItem} {vs : List ValidatedItem}
    (h : validateAll items = .ok vs) :
    ∀ item ∈ items, ∃ v, validateItem item = .ok v := by
  induction items generalizing vs with
  | nil => intro item him; cases him
  | cons hd rest ih =>
    rw [validateAll] at h
    cases hv : validateItem hd with
    | error e' =>
      simp only [hv] at h
      cases h
    | ok v =>
      simp only [hv] at h
      cases hr : validateAll rest with
      | error e' =>
        simp only [hr] at h
        cases h
      | ok ws =>
        intro item him
        rcases List.mem_cons.mp him with rfl | him'
        · exact ⟨v, hv⟩
        · exact ih hr item him'

lemma validateAll_length {items : List RawItem} {vs : List ValidatedItem}
    (h : validateAll items = .ok vs) : vs.length = items.length := by
  induction items generalizing vs with
  | nil => cases h; rfl
  | cons hd rest ih =>
    rw [validateAll] at h
    cases hv : validateItem hd with
    | error e' =>
      simp only [hv] at h
      cases h
    | ok v =>
      simp only [hv] at h
      cases hr : validateAll rest with
      | error e' =>
        simp only [hr] at h
        cases h
      | ok ws =>
        simp only [hr] at h
        cases h
        simp [ih hr]


/-- C10: an empty `schedule` array validates to the empty list and the
call then resolves with it on the first attempt; every accepted
response yields exactly one output entry per schedule entry. -/
theorem C10_entry_bijection :
    validateResponse ⟨some []⟩ = .ok [] ∧
    (∀ (tasks : List Task) (oracle : Nat → Except JsError (List ScheduledTask)),
      tasks.length ≠ 0 → oracle 0 = attemptOf ⟨some []⟩ →
      planTasks tasks oracle = { result := .ok [], modelCalls := 1, delays := [] }) ∧
    (∀ (items : List RawItem) (out : List ScheduledTask),
      validateResponse ⟨some items⟩ = .ok out → out.length = items.length) := by
  refine ⟨rfl, ?_, ?_⟩
  · intro tasks oracle hne h0
    have hok : oracle 0 = .ok [] := h0.trans rfl
    rw [planTasks, if_neg hne, show maxRetries + 1 = 3 + 1 from rfl,
      attemptLoop_step_ok hok]
  · intro items out h
    rw [validateResponse_some] at h
    cases hv : validateAll items with
    | error e =>
      simp only [hv] at h
      cases h
    | ok validated =>
      simp only [hv] at h
      cases h
      simp [sortSchedule, validateAll_length hv]

theorem C10_entry_bijection_witness :
    planTasks [{ description := "t" }] (fun _ => attemptOf ⟨some []⟩) =
      { result := .ok [], modelCalls := 1, delays := [] } ∧
    ([] : List ScheduledTask).length = ([] : List RawItem).length :=
  ⟨C10_entry_bijection.2.1 [{ description := "t" }] _ (by decide) rfl,
   C10_entry_bijection.2.2 [] [] rfl⟩

/-- C4: accepted responses are returned sorted ascending by the
original 24-hour time as minutes-since-midnight (`sortKey`), the sort
is stable (a pair in original order with equal keys stays in that
order), and the internal `sortTime` key is stripped, leaving exactly
the `task`/`time`/`reason` projection of the sorted entries. -/
theorem C4_sorted_stable_stripped :
    ∀ (items : List RawItem) (validated : List ValidatedItem) (out : List ScheduledTask),
      validateAll items = .ok validated →
      validateResponse ⟨some items⟩ = .ok out →
      out = (sortSchedule validated).map stripSortTime ∧
      (sortSchedule validated).Pairwise (fun a b => sortKey a ≤ sortKey b) ∧
      (∀ a b, sortKey a ≤ sortKey b → List.Sublist [a, b] validated →
        List.Sublist [a, b] (sortSchedule validated)) ∧
      (sortSchedule validated).length = validated.length := by
  intro items validated out hv h
  have hout : out = (sortSchedule validated).map stripSortTime := by
    rw [validateResponse_some] at h
    simp only [hv] at h
    cases h
    rfl
  haveI : IsTotal ValidatedItem (fun a b => sortKey a ≤ sortKey b) :=
    ⟨fun a b => Nat.le_total _ _⟩
  haveI : IsTrans ValidatedItem (fun a b => sortKey a ≤ sortKey b) :=
    ⟨fun _ _ _ hab hbc => Nat.le_trans hab hbc⟩
  refine ⟨hout, ?_, ?_, by simp [sortSchedule]⟩
  · exact List.sorted_insertionSort _ validated
  · intro a b hab hsub
    exact List.pair_sublist_insertionSort hab hsub

theorem C4_sorted_stable_stripped_witness :
    ∃ out, validateResponse ⟨some [
        { task := some "a", time := some "14:30", reason := some "x" },
        { task := some "b", time := some "06:00", reason := some "y" },
        { task := some "c", time := some "09:15", reason := some "z" }]⟩ = .ok out ∧
      out = [{ task := "b", time := "6:00 AM", reason := "y" },
             { task := "c", time := "9:15 AM", reason := "z" },
             { task := "a", time := "2:30 PM", reason := "x" }] := by
  refine ⟨_, rfl, ?_⟩
  have h := C4_sorted_stable_stripped [
      { task := some "a", time := some "14:30", reason := some "x" },
      { task := some "b", time := some "06:00", reason := some "y" },
      { task := some "c", time := some "09:15", reason := some "z" }] _ _ rfl rfl
  rw [h.1]
  decide


/-- C2: the time check accepts exactly the 24-hour times with hours
0–23 and minutes 0–59, in padded `HH:MM` or single-digit-hour `H:MM`
form (so `"9:00"` passes); `"24:15"` and `"25:00"` are rejected; and
any entry with a missing/empty field or a non-matching time makes the
whole response fail with an `INVALID_FORMAT` error — no partial
schedule. -/
theorem C2_time_validation :
    (∀ h : Fin 24, ∀ m : Fin 60, timeRegexTest (fmtTimePadded h.val m.val) = true) ∧
    (∀ h : Fin 10, ∀ m : Fin 60, timeRegexTest (fmtTimeBare h.val m.val) = true) ∧
    (timeRegexTest "24:15" = false ∧ timeRegexTest "25:00" = false) ∧
    (∀ s : String, timeRegexTest s = true →
      (parseTimeParts s).1 ≤ 23 ∧ (parseTimeParts s).2 ≤ 59) ∧
    (∀ (items : List RawItem) (item : RawItem), item ∈ items →
      ((falsyField item.task || falsyField item.time || falsyField item.reason) = true
        ∨ timeRegexTest (item.time.getD "") = false) →
      ∃ e, validateResponse ⟨some items⟩ = .error e ∧
        e.code = some "INVALID_FORMAT") := by
  refine ⟨by decide, by decide, by decide, fun s h => timeRegex_sound h, ?_⟩
  intro items item hmem hbad
  cases hv : validateAll items with
  | error e =>
    refine ⟨e, ?_, validateAll_error_code hv⟩
    rw [validateResponse_some]
    simp only [hv]
  | ok vs =>
    obtain ⟨v, hvi⟩ := validateAll_ok_mem hv item hmem
    obtain ⟨e, he⟩ := validateItem_error_of_bad hbad
    rw [hvi] at he
    cases he

theorem C2_time_validation_witness :
    timeRegexTest (fmtTimePadded 9 30) = true ∧
    timeRegexTest (fmtTimeBare 9 0) = true ∧
    ((parseTimeParts "19:45").1 ≤ 23 ∧ (parseTimeParts "19:45").2 ≤ 59) ∧
    (∃ e, validateResponse ⟨some [
        { task := some "a", time := some "24:15", reason := some "r" }]⟩ = .error e ∧
      e.code = some "INVALID_FORMAT") :=
  ⟨C2_time_validation.1 ⟨9, by decide⟩ ⟨30, by decide⟩,
   C2_time_validation.2.1 ⟨9, by decide⟩ ⟨0, by decide⟩,
   C2_time_validation.2.2.2.1 "19:45" (by decide),
   C2_time_validation.2.2.2.2 _ _ (List.mem_singleton.mpr rfl) (.inr (by decide))⟩


lemma waitForSlot_cons (limit windowMs now : Nat) (nows requests : List Nat) :
    waitForSlot limit windowMs (now :: nows) requests =
      if (evictOld windowMs now requests).length ≥ limit then
        match waitForSlot limit windowMs nows (evictOld windowMs now requests) with
        | .recorded rs t ws =>
          .recorded rs t ((windowMs - (now - (evictOld windowMs now requests).headD 0)) :: ws)
        | .noClock => .noClock
      else .recorded (evictOld windowMs now requests ++ [now]) now [] := rfl

lemma evictOld_length_le (windowMs now : Nat) (requests : List Nat) :
    (evictOld windowMs now requests).length ≤ requests.length :=
  List.length_filter_le _ _

lemma waitForSlot_invariant {limit windowMs : Nat} :
    ∀ {nows requests : List Nat} {rs : List Nat} {t : Nat} {ws : List Nat},
      requests.length ≤ limit →
      waitForSlot limit windowMs nows requests = .recorded rs t ws →
      rs.length ≤ limit := by
  intro nows
  induction nows with
  | nil => intro requests rs t ws hlen h; cases h
  | cons now nows ih =>
    intro requests rs t ws hlen h
    rw [waitForSlot_cons] at h
    by_cases hcap : (evictOld windowMs now requests).length ≥ limit
    · rw [if_pos hcap] at h
      cases hrec : waitForSlot limit windowMs nows (evictOld windowMs now requests) with
      | recorded rs' t' ws' =>
        rw [hrec] at h
        cases h
        exact ih (le_trans (evictOld_length_le _ _ _) hlen) hrec
      | noClock => rw [hrec] at h; cases h
    · rw [if_neg hcap] at h
      cases h
      have := lt_of_not_le (fun hc => hcap hc)
      simp only [List.length_append, List.length_cons, List.length_nil]
      omega

lemma waitForSlot_no_record_at_capacity {limit windowMs now : Nat}
    {nows requests rs ws : List Nat} {t : Nat}
    (hcap : (evictOld windowMs now requests).length ≥ limit)
    (h : waitForSlot limit windowMs (now :: nows) requests = .recorded rs t ws) :
    ws ≠ [] := by
  rw [waitForSlot_cons, if_pos hcap] at h
  cases hrec : waitForSlot limit windowMs nows (evictOld windowMs now requests) with
  | recorded rs' t' ws' =>
    rw [hrec] at h
    cases h
    simp
  | noClock => rw [hrec] at h; cases h

lemma waitForSlot_delayed {limit windowMs now0 now1 oldest : Nat}
    {nows requests tail : List Nat}
    (hev : evictOld windowMs now0 requests = oldest :: tail)
    (hcap : (oldest :: tail).length = limit)
    (hmono : ∀ x ∈ requests, x ≤ now0)
    (hsleep : now0 + (windowMs - (now0 - oldest)) ≤ now1) :
    waitForSlot limit windowMs (now0 :: now1 :: nows) requests =
      .recorded (evictOld windowMs now1 (oldest :: tail) ++ [now1]) now1
        [windowMs - (now0 - oldest)] ∧
    oldest + windowMs ≤ now1 := by
  have hold_mem : oldest ∈ evictOld windowMs now0 requests := by
    rw [hev]; exact List.mem_cons_self _ _
  have hold_in : now0 - oldest < windowMs := by
    have := List.of_mem_filter hold_mem
    simpa using this
  have hold_req : oldest ∈ requests := List.mem_of_mem_filter hold_mem
  have hold_le : oldest ≤ now0 := hmono oldest hold_req
  have hwake : oldest + windowMs ≤ now1 := by omega
  have hdrop : evictOld windowMs now1 (oldest :: tail) =
      evictOld windowMs now1 tail := by
    rw [evictOld, List.filter_cons]
    have : ¬ (now1 - oldest < windowMs) := by omega
    simp [this, evictOld]
  have hlt : (evictOld windowMs now1 (oldest :: tail)).length < limit := by
    rw [hdrop]
    calc (evictOld windowMs now1 tail).length ≤ tail.length :=
          evictOld_length_le _ _ _
      _ < limit := by
          have : tail.length + 1 = limit := by simpa using hcap
          omega
  refine ⟨?_, hwake⟩
  rw [waitForSlot_cons, hev, if_pos hcap.ge, waitForSlot_cons,
    if_neg (not_le.mpr hlt)]
  simp

/-- C7: eviction never grows the timestamp list and a completed
`waitForSlot` leaves at most `limit` timestamps; no caller records
while the post-eviction count is at capacity (at least one sleep
happens); and with the list at capacity the caller is delayed until at
least `windowMs` past the oldest timestamp, the capacity check being
re-evaluated from scratch (a fresh eviction at the wake-up time) before
the new call is recorded. -/
theorem C7_rate_limiter_invariant :
    (∀ windowMs now : Nat, ∀ requests : List Nat,
      (evictOld windowMs now requests).length ≤ requests.length) ∧
    (∀ (limit windowMs : Nat) (nows requests rs ws : List Nat) (t : Nat),
      requests.length ≤ limit →
      waitForSlot limit windowMs nows requests = .recorded rs t ws →
      rs.length ≤ limit) ∧
    (∀ (limit windowMs now : Nat) (nows requests rs ws : List Nat) (t : Nat),
      (evictOld windowMs now requests).length ≥ limit →
      waitForSlot limit windowMs (now :: nows) requests = .recorded rs t ws →
      ws ≠ []) ∧
    (∀ (limit windowMs now0 now1 oldest : Nat) (nows requests tail : List Nat),
      evictOld windowMs now0 requests = oldest :: tail →
      (oldest :: tail).length = limit →
      (∀ x ∈ requests, x ≤ now0) →
      now0 + (windowMs - (now0 - oldest)) ≤ now1 →
      waitForSlot limit windowMs (now0 :: now1 :: nows) requests =
        .recorded (evictOld windowMs now1 (oldest :: tail) ++ [now1]) now1
          [windowMs - (now0 - oldest)] ∧
      oldest + windowMs ≤ now1) := by
  refine ⟨fun windowMs now requests => evictOld_length_le _ _ _, ?_, ?_, ?_⟩
  · intro limit windowMs nows requests rs ws t hlen h
    exact waitForSlot_invariant hlen h
  · intro limit windowMs now nows requests rs ws t hcap h
    exact waitForSlot_no_record_at_capacity hcap h
  · intro limit windowMs now0 now1 oldest nows requests tail hev hcap hmono hsleep
    exact waitForSlot_delayed hev hcap hmono hsleep

theorem C7_rate_limiter_invariant_witness :
    (waitForSlot 3 60000 [100, 60010] [10, 20, 30] =
      .recorded (evictOld 60000 60010 [10, 20, 30] ++ [60010]) 60010
        [60000 - (100 - 10)] ∧
      10 + 60000 ≤ 60010) ∧
    ([20, 30, 60010] : List Nat).length ≤ 3 :=
  ⟨C7_rate_limiter_invariant.2.2.2 3 60000 100 60010 10 [] [10, 20, 30] [20, 30]
      (by decide) (by decide) (by decide) (by decide),
   C7_rate_limiter_invariant.2.1 3 60000 [100, 60010] [10, 20, 30]
      [20, 30, 60010] [60000 - (100 - 10)] 60010 (by decide) (by decide)⟩

end DailyTask
